import Mathlib

/-
  Verification of the ai-jsx render engine (packages/ai-jsx/src/core/render3.ts)
  via a shallow embedding in Lean.

  Conventions of the embedding:
  - JS records are modelled as functions from String keys to Option values;
    object spread is `spread` (later record overrides earlier keys).
  - Property values (nodes/literals/arrays) are the inductive `PVal`, where
    `PVal.arr` models a JS array (a fragment) and `PVal.atom` any non-array value.
  - Symbols are modelled as Nat identifiers; machine-level identity of JS
    objects is modelled by structural equality of closed inductive values.
  - Exceptions are modelled with `Except String`.
-/

namespace Spec2Proof

/-! ## Property values and record merging (render3.ts, createElement lines 143-146) -/

inductive PVal where
  | atom : Nat → PVal
  | arr : List PVal → PVal

/-- Object spread: the record that has every key of `a` and of `b`, keys of `b` winning. -/
def spread (a b : String → Option PVal) : String → Option PVal :=
  fun k =>
    match b k with
    | some v => some v
    | none => a k

/-- The record spread onto props by createElement: empty when no children are
given, otherwise a single key "children" holding the sole child itself when
exactly one child is given and the array of children otherwise. -/
def childrenRecord (children : List PVal) : String → Option PVal :=
  match children with
  | [] => fun _ => none
  | [c] => fun k => if k = "children" then some c else none
  | cs => fun k => if k = "children" then some (PVal.arr cs) else none

/-- The merged props record built by createElement (render3.ts lines 143-146):
spread of the given props (or the empty record when null) with the children record. -/
def propsToPass (props : Option (String → Option PVal)) (children : List PVal) :
    String → Option PVal :=
  spread (props.getD (fun _ => none)) (childrenRecord children)

/-! ## createElement and element invocation (render3.ts lines 128-166) -/

mutual

/-- Deep flattening of one node: a JS array is flattened recursively
(Array.prototype.flat with depth Infinity), any other value is kept. -/
def deepFlattenOne : PVal → List PVal
  | PVal.atom n => [PVal.atom n]
  | PVal.arr xs => deepFlattenList xs

/-- Deep flattening of a list of nodes. -/
def deepFlattenList : List PVal → List PVal
  | [] => []
  | x :: xs => deepFlattenOne x ++ deepFlattenList xs

end

/-- A tag is either a component (typeof tag is a function, identified by an id
into a component environment) or an intrinsic identifier (string or symbol). -/
inductive TagC where
  | comp : Nat → TagC
  | intrinsic : Nat → TagC

/-- The component context passed to an element invocation: its render function
(results of ctx.render are opaque ids) and its abort signal. -/
structure CtxC where
  renderFn : PVal → Nat
  abortSignal : Option Nat

/-- The RenderElementImpl constructor arguments, as stored by the constructor:
type, attributes, render context, abort signal, and rendered children. -/
structure RenElemC where
  ty : Nat
  attrs : String → Option PVal
  rctx : CtxC
  sig : Option Nat
  kids : List Nat

/-- What an element invocation returns: the Renderable produced by a delegated
component, or a freshly constructed render element. -/
inductive RdC where
  | fromComp : Nat → RdC
  | relem : RenElemC → RdC

/-- The environment giving the behavior of each component function: a component
receives the merged props record and the component context and may throw. -/
def CompEnv := Nat → (String → Option PVal) → CtxC → Except String RdC

/-- An Element as returned by createElement: the stored tag and props, and the
invocation behavior (the function body of the element). -/
structure ElemC where
  tag : TagC
  props : String → Option PVal
  invoke : CtxC → Except String RdC

/-- Shallow embedding of createElement (render3.ts lines 128-166): builds the
merged props, and returns an element whose invocation dispatches on the tag —
a function tag is called with the merged props and the context; otherwise a new
render element is constructed whose children are the deeply flattened children
each rendered under the context. -/
def createElementC (env : CompEnv) (tag : TagC) (props : Option (String → Option PVal))
    (children : List PVal) : ElemC :=
  let ptp := propsToPass props children
  { tag := tag
    props := ptp
    invoke := fun ctx =>
      match tag with
      | TagC.comp i => env i ptp ctx
      | TagC.intrinsic t =>
          Except.ok (RdC.relem
            ⟨t, ptp, ctx, ctx.abortSignal, (deepFlattenList children).map ctx.renderFn⟩) }

/-! ## Render context (Modelled from the spec: RenderContextImpl of
core/render-impl.js is not under src; modelled from spec sections 3 and 4.2 as
an immutable record of context-symbol bindings). -/

/-- A context key as produced by createContext: a unique symbol and a default value. -/
structure CKey where
  symbol : Nat
  dflt : Nat

/-- Modelled from the spec: a render context's context-value bindings
(RenderContextImpl of render-impl.js, not under src) — an immutable mapping
from context symbols to bound values. -/
structure RCtx where
  bindings : Nat → Option Nat

/-- Modelled from the spec: setContext returns a new context with the one
binding for the key's symbol overridden; the receiver is not modified. -/
def setContext (c : RCtx) (k : CKey) (v : Nat) : RCtx :=
  ⟨fun s => if s = k.symbol then some v else c.bindings s⟩

/-- Modelled from the spec: getContext resolves the nearest binding for the
key's symbol, or the key-defined default when unbound. -/
def getContext (c : RCtx) (k : CKey) : Nat :=
  (c.bindings k.symbol).getD k.dflt

/-! ## Memoization (Modelled from the spec: memo of the memoize module is not
under src; modelled from spec sections 3 (invariants) and 4.4: the first render
performs the real evaluation once and caches its frame sequence; every consumer
observes that same sequence; later renders do not re-run the evaluation). -/

/-- Modelled from the spec: one render of a memoized node. The state is the
cached frame list (none before the first render). Returns the frames this
consumer observes, the updated state, and how many underlying evaluations ran. -/
def renderMemo (ev : Nat → List String) (st : Option (List String)) (c : Nat) :
    List String × Option (List String) × Nat :=
  match st with
  | some fr => (fr, some fr, 0)
  | none => (ev c, some (ev c), 1)

/-- Modelled from the spec: a sequence of consumers (each with its own context)
rendering the same memoized node one after another; collects every consumer's
observed frame sequence and the total number of underlying evaluations. -/
def renderMemoAll (ev : Nat → List String) :
    Option (List String) → List Nat → List (List String) × Option (List String) × Nat
  | st, [] => ([], st, 0)
  | st, c :: cs =>
      let r := renderMemo ev st c
      let rest := renderMemoAll ev r.2.1 cs
      (r.1 :: rest.1, rest.2.1, r.2.2 + rest.2.2)

/-! ## fork (render3.ts lines 267-325): the shared mixed stream and the two
filters — the per-fork consumer loop and the main-stream loop. -/

/-- One item of the mixed underlying stream: a node of type forkedSymbol
produced by a fork's append (flag true, carrying its rendered children as
payload) or close (flag false) for the fork identified by fid; the fork's own
root node (type forkedSymbol but with no per-fork id key); or an ordinary
main-stream node. -/
inductive FMsg where
  | tagged : Nat → Bool → List String → FMsg
  | forkNode : FMsg
  | plain : String → FMsg
deriving DecidableEq

/-- The per-fork consumer loop (render3.ts lines 294-307): scan the mixed
stream; a node of type forkedSymbol whose attributes contain this fork's id
either contributes its children (id mapped to true) or terminates the stream
(id mapped to false); every other node is skipped. -/
def forkFilter (id : Nat) : List FMsg → List String
  | [] => []
  | FMsg.tagged fid flag payload :: rest =>
      if fid = id then
        if flag then payload ++ forkFilter id rest else []
      else forkFilter id rest
  | FMsg.forkNode :: rest => forkFilter id rest
  | FMsg.plain _ :: rest => forkFilter id rest

/-- The main-stream loop (render3.ts lines 316-323): every node whose type is
the forked symbol is skipped; every other node is yielded. -/
def mainFilter : List FMsg → List String
  | [] => []
  | FMsg.tagged _ _ _ :: rest => mainFilter rest
  | FMsg.forkNode :: rest => mainFilter rest
  | FMsg.plain s :: rest => s :: mainFilter rest

/-- Whether a mixed-stream item is the close marker of the fork identified by id. -/
def isOwnClose (id : Nat) : FMsg → Bool
  | FMsg.tagged fid flag _ => fid = id && flag = false
  | _ => false

/-- The payload an item contributes to the fork identified by id: the children
of an append tagged with that id, and nothing otherwise. -/
def ownPayload (id : Nat) : FMsg → List String
  | FMsg.tagged fid true payload => if fid = id then payload else []
  | _ => []

/-! ## Abort of an in-flight asynchronous sequence (Modelled from the spec:
the pull loop of RenderElementImpl of render-impl.js is not under src;
modelled from spec sections 4.3 and 5: before each pull the abort signal is
checked, and an aborted evaluator force-completes with the last value seen,
pulling nothing further). -/

/-- Modelled from the spec: the pull loop over an asynchronous sequence.
Arguments: which pull indices happen after the abort fired, the index of the
next pull, the last value seen, and the remaining items. Returns the items
actually pulled and the final state (the last value seen). -/
def pullUntilAborted (aborted : Nat → Bool) : Nat → Option String → List String →
    List String × Option String
  | _, last, [] => ([], last)
  | i, last, x :: rest =>
      if aborted i then ([], last)
      else
        let r := pullUntilAborted aborted (i + 1) (some x) rest
        (x :: r.1, r.2)

/-! ## Exception logging (render3.ts lines 71-83) -/

/-- The log severities of render3.ts line 51. -/
inductive LLevel where
  | fatal
  | error
  | warn
  | info
  | debug
  | trace
deriving DecidableEq

/-- An error object: its message plus an identifying payload. -/
structure ErrObj where
  message : String
  code : Nat
deriving DecidableEq

/-- One call to the abstract LogImplementation.log sink, with its full
argument list. -/
structure LogCall where
  level : LLevel
  component : Option Nat
  props : Option Nat
  renderId : String
  metadataOrMessage : ErrObj
  message : Option String
deriving DecidableEq

/-- Shallow embedding of LogImplementation.logException (render3.ts lines
71-83), as the trace of log calls it makes: one call at warn severity when
bubbling, else one call at error severity, each passing the component, props,
renderId, the error object, and the error's message. -/
def logException (component props : Option Nat) (renderId : String) (err : ErrObj)
    (bubbling : Bool) : List LogCall :=
  if bubbling then
    [⟨LLevel.warn, component, props, renderId, err, some err.message⟩]
  else
    [⟨LLevel.error, component, props, renderId, err, some err.message⟩]

/-! ## Render elements as trees (for traverse / replace / replaceSubtree,
render3.ts lines 182-265): a render node is a string or a render element with
its type, attributes, render context, abort signal (all opaque ids) and its
child nodes. The asynchronous child stream is modelled by the (ordered, fully
arrived) list of children it yields. -/

mutual

inductive RNode where
  | str : String → RNode
  | el : Nat → Nat → Nat → Option Nat → RKids → RNode
deriving DecidableEq

inductive RKids where
  | nil : RKids
  | cons : RNode → RKids → RKids
deriving DecidableEq

end

/-- Map a function over every child in order (the replaced child stream). -/
def RKids.map (f : RNode → RNode) : RKids → RKids
  | RKids.nil => RKids.nil
  | RKids.cons x xs => RKids.cons (f x) (RKids.map f xs)

/-- The number of children. -/
def RKids.length : RKids → Nat
  | RKids.nil => 0
  | RKids.cons _ xs => RKids.length xs + 1

/-- The i-th child, or a default past the end. -/
def RKids.getD : RKids → Nat → RNode → RNode
  | RKids.nil, _, d => d
  | RKids.cons x _, 0, _ => x
  | RKids.cons _ xs, i + 1, d => RKids.getD xs i d

/-- The children of a render node (a string has none). -/
def childrenOf : RNode → RKids
  | RNode.str _ => RKids.nil
  | RNode.el _ _ _ _ kids => kids

/-- Shallow embedding of replace (render3.ts lines 182-194): a new render
element with the same type, attributes, render context and abort signal, whose
child stream yields the replacer applied to each node the original yields. -/
def replace (r : RNode) (f : RNode → RNode) : RNode :=
  match r with
  | RNode.str s => RNode.str s
  | RNode.el t a c s kids => RNode.el t a c s (RKids.map f kids)

/-- Shallow embedding of replaceSubtree (render3.ts lines 196-206): with an
empty path, replace at this node; otherwise replace each child with itself
unless it is the head of the path, which is retargeted recursively. -/
def replaceSubtree : RNode → List RNode → (RNode → RNode) → RNode
  | r, [], f => replace r f
  | r, h :: tl, f => replace r (fun n => if n = h then replaceSubtree h tl f else n)

/-- The options record of traverse (render3.ts line 248): the yield, yieldPost
and descend predicates (an absent predicate is the constantly-false one, which
is how the optional-chaining calls behave). -/
structure TOpts where
  yld : RNode → Bool
  yldPost : RNode → Bool
  descend : RNode → Bool

mutual

/-- Shallow embedding of traverse (render3.ts lines 246-265): yield the node
with its ancestor path when the yield predicate matches, descend into the
children (appending this node to the path) when the descend predicate matches,
then yield again when the yieldPost predicate matches. The child loop only
recurses into object children, so traversing a string yields nothing. -/
def traverse (o : TOpts) (r : RNode) (p : List RNode) : List (RNode × List RNode) :=
  match r with
  | RNode.str _ => []
  | RNode.el t a c s kids =>
      (if o.yld (RNode.el t a c s kids) then [(RNode.el t a c s kids, p)] else [])
        ++ (if o.descend (RNode.el t a c s kids) then
              traverseKids o kids (p ++ [RNode.el t a c s kids])
            else [])
        ++ (if o.yldPost (RNode.el t a c s kids) then [(RNode.el t a c s kids, p)] else [])

/-- The child loop of traverse: traverse each child in order and concatenate. -/
def traverseKids (o : TOpts) : RKids → List RNode → List (RNode × List RNode)
  | RKids.nil, _ => []
  | RKids.cons ch rest, p => traverse o ch p ++ traverseKids o rest p

end

/-- A sample render element of depth 2 used to exercise traverse. -/
def sampleTree : RNode :=
  RNode.el 0 7 0 none (RKids.cons (RNode.el 1 8 0 none RKids.nil) RKids.nil)

/-- An options record whose descend predicate is constantly false and whose
yield and yieldPost predicates always match. -/
def allYieldOpts : TOpts :=
  ⟨fun _ => true, fun _ => true, fun _ => false⟩

/-! ## Theorems -/

/-- C1: createElement(tag, props, ...children) is total (construction never
throws) and returns an Element storing the tag and the merged props; invoking
it with a component context returns exactly the result (value or thrown
exception) of calling the component with the merged props record and that
context when the tag is a function, and otherwise returns, without any
possibility of an exception, a new render element whose children are the
renderings of each deeply flattened child under that context. -/
theorem createElement_invocation (env : CompEnv) (tag : TagC)
    (props : Option (String → Option PVal)) (children : List PVal) (ctx : CtxC) :
    (createElementC env tag props children).tag = tag
    ∧ (createElementC env tag props children).props = propsToPass props children
    ∧ (∀ i, tag = TagC.comp i →
        (createElementC env tag props children).invoke ctx = env i (propsToPass props children) ctx)
    ∧ (∀ t, tag = TagC.intrinsic t →
        (createElementC env tag props children).invoke ctx
          = Except.ok (RdC.relem
              ⟨t, propsToPass props children, ctx, ctx.abortSignal,
                (deepFlattenList children).map ctx.renderFn⟩)) := by
  refine ⟨rfl, rfl, ?_, ?_⟩ <;> rintro x rfl <;> rfl

/-- C1 witness: at a concrete component environment, tag, props, children and
context, each hypothesis is discharged and the dispatch equations evaluate. -/
theorem createElement_invocation_witness :
    (createElementC (fun _ _ _ => Except.ok (RdC.fromComp 7)) (TagC.comp 3) none
        [PVal.arr [PVal.atom 1]]).invoke ⟨fun _ => 0, none⟩
      = Except.ok (RdC.fromComp 7)
    ∧ (createElementC (fun _ _ _ => Except.ok (RdC.fromComp 7)) (TagC.intrinsic 5) none
        [PVal.arr [PVal.atom 1]]).invoke ⟨fun _ => 0, none⟩
      = Except.ok (RdC.relem
          ⟨5, propsToPass none [PVal.arr [PVal.atom 1]], ⟨fun _ => 0, none⟩, none, [0]⟩) :=
  ⟨((createElement_invocation (fun _ _ _ => Except.ok (RdC.fromComp 7)) (TagC.comp 3) none
      [PVal.arr [PVal.atom 1]] ⟨fun _ => 0, none⟩).2.2.1 3 rfl).trans rfl,
   ((createElement_invocation (fun _ _ _ => Except.ok (RdC.fromComp 7)) (TagC.intrinsic 5) none
      [PVal.arr [PVal.atom 1]] ⟨fun _ => 0, none⟩).2.2.2 5 rfl).trans rfl⟩

/-- C2: setContext returns a new context binding the key to the value; a key
with a different symbol resolves as before; the receiver itself is an unchanged
immutable value, so a sibling context derived from it with a different key
still resolves the original binding or default, not the new one. -/
theorem setContext_pure (c : RCtx) (k : CKey) (v : Nat) :
    getContext (setContext c k v) k = v
    ∧ (∀ k2, k2.symbol ≠ k.symbol → getContext (setContext c k v) k2 = getContext c k2)
    ∧ (∀ k2 v2, k2.symbol ≠ k.symbol → getContext (setContext c k2 v2) k = getContext c k) := by
  refine ⟨?_, ?_, ?_⟩
  · simp [getContext, setContext]
  · intro k2 hk
    simp [getContext, setContext, hk]
  · intro k2 v2 hk
    simp [getContext, setContext, Ne.symm hk]

/-- C2 witness: at a concrete parent context, key, and sibling key, the parent
lookup is unchanged by the derivation and the sibling does not observe it. -/
theorem setContext_pure_witness :
    getContext (setContext ⟨fun _ => none⟩ ⟨0, 10⟩ 42) ⟨0, 10⟩ = 42
    ∧ getContext (setContext ⟨fun _ => none⟩ ⟨0, 10⟩ 42) ⟨1, 11⟩ = getContext ⟨fun _ => none⟩ ⟨1, 11⟩
    ∧ getContext (setContext ⟨fun _ => none⟩ ⟨1, 11⟩ 5) ⟨0, 10⟩ = getContext ⟨fun _ => none⟩ ⟨0, 10⟩ :=
  ⟨(setContext_pure ⟨fun _ => none⟩ ⟨0, 10⟩ 42).1,
   (setContext_pure ⟨fun _ => none⟩ ⟨0, 10⟩ 42).2.1 ⟨1, 11⟩ (by decide),
   (setContext_pure ⟨fun _ => none⟩ ⟨0, 10⟩ 42).2.2 ⟨1, 11⟩ 5 (by decide)⟩

/-- After the first render has cached the frame sequence, every later render
returns the cached frames, leaves the cache unchanged, and runs no evaluation. -/
theorem renderMemoAll_cached (ev : Nat → List String) (fr : List String) (cs : List Nat) :
    renderMemoAll ev (some fr) cs = (cs.map (fun _ => fr), some fr, 0) := by
  induction cs with
  | nil => rfl
  | cons c cs ih => simp [renderMemoAll, renderMemo, ih]

/-- C3: however many consumers render a memoized node, under whatever contexts,
the underlying evaluation runs exactly once, and every consumer observes the
one frame sequence produced under the first consumer's context — so any two
observed sequences are identical at every index. -/
theorem memo_single_evaluation (ev : Nat → List String) (c : Nat) (cs : List Nat) :
    (renderMemoAll ev none (c :: cs)).2.2 = 1
    ∧ (∀ fr, fr ∈ (renderMemoAll ev none (c :: cs)).1 → fr = ev c) := by
  constructor
  · simp [renderMemoAll, renderMemo, renderMemoAll_cached]
  · intro fr hfr
    simp [renderMemoAll, renderMemo, renderMemoAll_cached] at hfr
    rcases hfr with h | ⟨_, h⟩ <;> exact h

/-- C3 witness: with a concrete evaluation and two consumers under different
contexts, one evaluation runs and the second consumer's observed sequence
equals the evaluation under the first context. -/
theorem memo_single_evaluation_witness :
    (renderMemoAll (fun c => [if c = 0 then "x" else "y"]) none [0, 1]).2.2 = 1
    ∧ (renderMemoAll (fun c => [if c = 0 then "x" else "y"]) none [0, 1]).1.getD 1 []
        = (fun c => [if c = 0 then "x" else "y"]) 0 :=
  ⟨(memo_single_evaluation (fun c => [if c = 0 then "x" else "y"]) 0 [1]).1,
   (memo_single_evaluation (fun c => [if c = 0 then "x" else "y"]) 0 [1]).2
     ((renderMemoAll (fun c => [if c = 0 then "x" else "y"]) none [0, 1]).1.getD 1 [])
     (by decide)⟩

/-- C8: on a leaf yielding "a", "ab", "abc" under a signal that aborts before
the third pull, the loop pulls exactly "a" and "ab", force-completes with final
state "ab", and never pulls "abc". -/
theorem abort_stops_pulls :
    pullUntilAborted (fun i => decide (2 ≤ i)) 0 none ["a", "ab", "abc"]
      = (["a", "ab"], some "ab")
    ∧ "abc" ∉ (pullUntilAborted (fun i => decide (2 ≤ i)) 0 none ["a", "ab", "abc"]).1 := by
  decide

/-- C9: logException makes exactly one log emission; at warn severity when the
error is bubbling (recovered by a boundary) and at error severity otherwise,
carrying the error object, its message, and the component, props and renderId. -/
theorem logException_severity (c p : Option Nat) (r : String) (e : ErrObj) (b : Bool) :
    (logException c p r e b).length = 1
    ∧ (b = true →
        logException c p r e b = [⟨LLevel.warn, c, p, r, e, some e.message⟩])
    ∧ (b = false →
        logException c p r e b = [⟨LLevel.error, c, p, r, e, some e.message⟩]) := by
  cases b <;> simp [logException]

/-- C9 witness: both severity branches evaluated at concrete arguments. -/
theorem logException_severity_witness :
    logException none none "rid" ⟨"boom", 3⟩ true
      = [⟨LLevel.warn, none, none, "rid", ⟨"boom", 3⟩, some "boom"⟩]
    ∧ logException none none "rid" ⟨"boom", 3⟩ false
      = [⟨LLevel.error, none, none, "rid", ⟨"boom", 3⟩, some "boom"⟩] :=
  ⟨(logException_severity none none "rid" ⟨"boom", 3⟩ true).2.1 rfl,
   (logException_severity none none "rid" ⟨"boom", 3⟩ false).2.2 rfl⟩

/-- C10: for props without a reserved children key (as the createElement
signature requires), the merged record has no children key when no children
are given; the sole child itself (not a one-element array) when one is given;
the array of the children in call order when two or more are given; and every
other key resolves exactly as in props. -/
theorem propsToPass_children_shape (props : String → Option PVal) (children : List PVal)
    (hp : props "children" = none) :
    (children = [] → propsToPass (some props) children "children" = none)
    ∧ (∀ c, children = [c] → propsToPass (some props) children "children" = some c)
    ∧ (2 ≤ children.length → propsToPass (some props) children "children" = some (PVal.arr children))
    ∧ (∀ k, k ≠ "children" → propsToPass (some props) children k = props k) := by
  refine ⟨?_, ?_, ?_, ?_⟩
  · rintro rfl
    simp [propsToPass, spread, childrenRecord, hp]
  · rintro c rfl
    simp [propsToPass, spread, childrenRecord]
  · intro hlen
    match children, hlen with
    | a :: b :: rest, _ =>
      simp [propsToPass, spread, childrenRecord]
  · intro k hk
    match children with
    | [] => simp [propsToPass, spread, childrenRecord]
    | [c] => simp [propsToPass, spread, childrenRecord, hk]
    | a :: b :: rest => simp [propsToPass, spread, childrenRecord, hk]

/-- C10 witness: at a concrete props record lacking the children key, the
one-child and other-key clauses evaluate as claimed. -/
theorem propsToPass_children_shape_witness :
    propsToPass (some (fun k => if k = "x" then some (PVal.atom 1) else none)) [PVal.atom 2]
        "children" = some (PVal.atom 2)
    ∧ propsToPass (some (fun k => if k = "x" then some (PVal.atom 1) else none)) [PVal.atom 2]
        "x" = (fun k => if k = "x" then some (PVal.atom 1) else none) "x" :=
  ⟨(propsToPass_children_shape (fun k => if k = "x" then some (PVal.atom 1) else none)
      [PVal.atom 2] rfl).2.1 (PVal.atom 2) rfl,
   (propsToPass_children_shape (fun k => if k = "x" then some (PVal.atom 1) else none)
      [PVal.atom 2] rfl).2.2.2 "x" (by decide)⟩

/-- C4: a forked consumer's stream is exactly the concatenation, in order, of
the payloads appended with that fork's own identifier that occur before that
fork's close marker — so foreign appends, foreign closes, the fork root nodes
and the untagged main-stream nodes never appear in it; and the main stream is
exactly the untagged nodes in order, every forked-symbol node being skipped. -/
theorem fork_demux (id : Nat) (msgs : List FMsg) :
    forkFilter id msgs
      = ((msgs.takeWhile fun m => ! isOwnClose id m).map (ownPayload id)).flatten
    ∧ mainFilter msgs
      = msgs.filterMap (fun m => match m with | FMsg.plain s => some s | _ => none) := by
  constructor
  · induction msgs with
    | nil => rfl
    | cons m rest ih =>
      cases m with
      | tagged fid flag payload =>
        by_cases hfid : fid = id
        · subst hfid
          cases flag with
          | false => simp [forkFilter, isOwnClose, List.takeWhile]
          | true => simp [forkFilter, isOwnClose, ownPayload, List.takeWhile, ih]
        · cases flag <;>
            simp [forkFilter, isOwnClose, ownPayload, List.takeWhile, hfid, ih]
      | forkNode => simp [forkFilter, isOwnClose, ownPayload, List.takeWhile, ih]
      | plain s => simp [forkFilter, isOwnClose, ownPayload, List.takeWhile, ih]
  · induction msgs with
    | nil => rfl
    | cons m rest ih => cases m <;> simp [mainFilter, ih]

/-- If the i-th position is within bounds, the i-th element of a mapped child
list is the function applied to the i-th original child. -/
theorem RKids.getD_map : ∀ (f : RNode → RNode) (k : RKids) (i : Nat) (d : RNode),
    i < RKids.length k → RKids.getD (RKids.map f k) i d = f (RKids.getD k i d)
  | _, RKids.nil, i, _, hi => absurd hi (Nat.not_lt_zero i)
  | _, RKids.cons _ _, 0, _, _ => rfl
  | f, RKids.cons _ xs, i + 1, d, hi => RKids.getD_map f xs i d (Nat.lt_of_succ_lt_succ hi)

/-- C5 counterexample: with the yield and yieldPost predicates always matching
and descend constantly false, traverse of a concrete render element yields the
pair twice, not exactly once as the claim states. -/
theorem traverse_descend_false_counterexample :
    allYieldOpts.yld sampleTree = true
    ∧ traverse allYieldOpts sampleTree [] = [(sampleTree, []), (sampleTree, [])]
    ∧ [(sampleTree, ([] : List RNode)), (sampleTree, [])] ≠ [(sampleTree, [])] := by
  refine ⟨rfl, by decide, by decide⟩

/-- C5 amended: for every render element and options record whose descend
predicate is constantly false, traverse yields the pair of the root and the
empty path once if the yield predicate matches, and once more if the yieldPost
predicate matches, and nothing else — in particular no descendant is ever
visited, and when yieldPost never matches it yields exactly one pair when
yield matches and none when it does not. -/
theorem traverse_descend_false (o : TOpts) (t a c : Nat) (s : Option Nat) (kids : RKids)
    (hd : ∀ x, o.descend x = false) :
    traverse o (RNode.el t a c s kids) []
      = (if o.yld (RNode.el t a c s kids) then [(RNode.el t a c s kids, ([] : List RNode))]
         else [])
        ++ (if o.yldPost (RNode.el t a c s kids) then [(RNode.el t a c s kids, [])] else []) := by
  simp [traverse, hd]

/-- C5 amended witness: at the concrete all-yield options (descend constantly
false) and the depth-2 sample tree, the two-pair output evaluates. -/
theorem traverse_descend_false_witness :
    traverse allYieldOpts sampleTree [] = [(sampleTree, []), (sampleTree, [])] := by
  have h := traverse_descend_false allYieldOpts 0 7 0 none
    (RKids.cons (RNode.el 1 8 0 none RKids.nil) RKids.nil) (fun _ => rfl)
  simpa [allYieldOpts, sampleTree] using h

/-- C6: replaceSubtree on a non-empty path replaces each child of the root
with itself unless it is the head of the path, which is retargeted recursively
down the remaining path; so every in-bounds child that is not the next path
element appears identically at its position in the output, the child that is
the next path element becomes its recursive retargeting, and at the end of the
path the replacer is applied to the children of the reached node. -/
theorem replaceSubtree_path_only (t a c : Nat) (s : Option Nat) (kids : RKids) (h : RNode)
    (tl : List RNode) (f : RNode → RNode) :
    replaceSubtree (RNode.el t a c s kids) (h :: tl) f
      = RNode.el t a c s (RKids.map (fun n => if n = h then replaceSubtree h tl f else n) kids)
    ∧ (∀ i d, i < RKids.length kids → RKids.getD kids i d ≠ h →
        RKids.getD (childrenOf (replaceSubtree (RNode.el t a c s kids) (h :: tl) f)) i d
          = RKids.getD kids i d)
    ∧ (∀ i d, i < RKids.length kids → RKids.getD kids i d = h →
        RKids.getD (childrenOf (replaceSubtree (RNode.el t a c s kids) (h :: tl) f)) i d
          = replaceSubtree h tl f)
    ∧ replaceSubtree (RNode.el t a c s kids) [] f = RNode.el t a c s (RKids.map f kids) := by
  refine ⟨rfl, ?_, ?_, rfl⟩
  · intro i d hi hne
    show RKids.getD (RKids.map _ kids) i d = _
    rw [RKids.getD_map _ _ _ _ hi, if_neg hne]
  · intro i d hi heq
    show RKids.getD (RKids.map _ kids) i d = _
    rw [RKids.getD_map _ _ _ _ hi, if_pos heq]

/-- The child list of the concrete parent used to exercise replaceSubtree: a
string sibling and the element child the path targets. -/
def c6Kids : RKids :=
  RKids.cons (RNode.str "x") (RKids.cons (RNode.el 1 8 0 none RKids.nil) RKids.nil)

/-- The path element targeted by the concrete replaceSubtree. -/
def c6Target : RNode := RNode.el 1 8 0 none RKids.nil

/-- The concrete replacer used to exercise replaceSubtree. -/
def c6Repl : RNode → RNode := fun _ => RNode.str "R"

/-- C6 witness: at a concrete parent, one-element path and replacer, the
sibling passes through identically and the targeted child is retargeted. -/
theorem replaceSubtree_path_only_witness :
    RKids.getD (childrenOf (replaceSubtree (RNode.el 0 7 0 none c6Kids) [c6Target] c6Repl))
        0 (RNode.str "") = RNode.str "x"
    ∧ RKids.getD (childrenOf (replaceSubtree (RNode.el 0 7 0 none c6Kids) [c6Target] c6Repl))
        1 (RNode.str "") = replaceSubtree c6Target [] c6Repl :=
  ⟨(replaceSubtree_path_only 0 7 0 none c6Kids c6Target [] c6Repl).2.1 0 (RNode.str "")
      (by decide) (by decide),
   (replaceSubtree_path_only 0 7 0 none c6Kids c6Target [] c6Repl).2.2.1 1 (RNode.str "")
      (by decide) (by decide)⟩

/-- C7: replace returns a new render element with the same type, attributes,
render context and abort signal, whose child stream is the original's mapped
through the replacer — the i-th output child is the replacer applied to the
i-th input child. -/
theorem replace_stream (t a c : Nat) (s : Option Nat) (kids : RKids) (f : RNode → RNode) :
    replace (RNode.el t a c s kids) f = RNode.el t a c s (RKids.map f kids)
    ∧ (∀ i d, i < RKids.length kids →
        RKids.getD (childrenOf (replace (RNode.el t a c s kids) f)) i d
          = f (RKids.getD kids i d)) := by
  refine ⟨rfl, ?_⟩
  intro i d hi
  exact RKids.getD_map f kids i d hi

/-- C7 witness: at a concrete render element and replacer, the replaced
element keeps its fields and its only child is the replacer's output. -/
theorem replace_stream_witness :
    replace (RNode.el 0 7 0 none (RKids.cons (RNode.str "x") RKids.nil)) (fun _ => RNode.str "R")
      = RNode.el 0 7 0 none (RKids.cons (RNode.str "R") RKids.nil)
    ∧ RKids.getD (childrenOf (replace (RNode.el 0 7 0 none (RKids.cons (RNode.str "x") RKids.nil))
        (fun _ => RNode.str "R"))) 0 (RNode.str "") = RNode.str "R" :=
  ⟨((replace_stream 0 7 0 none (RKids.cons (RNode.str "x") RKids.nil)
      (fun _ => RNode.str "R")).1).trans rfl,
   ((replace_stream 0 7 0 none (RKids.cons (RNode.str "x") RKids.nil)
      (fun _ => RNode.str "R")).2 0 (RNode.str "") (by decide)).trans rfl⟩

end Spec2Proof
